import Mathlib

/-!
The `sketch` command of Mash (`src/mash/CommandSketch.cpp`)

A shallow embedding of `mash::CommandSketch`: the argument check, the
collection of the input files, the choice of the output name and the two
`run` paths (sequence sketch and fingerprint sketch).

* `std::string` is `String`, `std::vector<std::string>` is `List String`.
* The calls a run makes on its collaborators (`print`, the parameter
  setup, `Sketch` and `SketchFingerPrint` methods) are recorded, in program
  order, in a list of `Event`s returned next to the exit code.
* What `CommandSketch.cpp` uses from headers that are not part of the
  available sources is gathered in the structure `Externals` and passed
  explicitly.
-/

set_option autoImplicit false

namespace mash

/-! ## Data model -/

/-- The two fields of `Command::Option` that `CommandSketch.cpp` reads. -/
structure Command.Option where
  active : Bool
  argument : String
  deriving DecidableEq, Repr

/-- The part of `Command` consulted by `CommandSketch`: the positional
arguments and the option table. `options name` stands for
`options.at(name)`; every key looked up in `CommandSketch.cpp` is
registered by the constructor `CommandSketch::CommandSketch`. -/
structure Command where
  arguments : List String
  options : String → Command.Option

/-- Modelled from the spec: `Command::getOption` is declared in `Command.h`,
which is not among the available sources; it is the accessor of the option
table, `options.at(name)`. -/
def Command.getOption (cmd : Command) (name : String) : Command.Option :=
  cmd.options name

/-- The fields of `Sketch::Parameters` used by `CommandSketch.cpp`. -/
structure Sketch.Parameters where
  counts : Bool
  reads : Bool
  windowed : Bool
  deriving DecidableEq, Repr

/-- The fields of `SketchFingerPrint::Parameters` used by
`CommandSketch.cpp`. -/
structure SketchFingerPrint.Parameters where
  counts : Bool
  windowed : Bool
  deriving DecidableEq, Repr

/-- What `CommandSketch.cpp` takes from `Sketch.h`, `SketchFingerPrint.h` and
`sketchParameterSetup.h`, none of which is available: suffix constants, the
fingerprint suffix test, `splitFile`, the two parameter setups (exit code
and the parameters they leave behind), the default-constructed parameter
objects and the objects obtained from the `nullptr` arguments of
`determinePrefixAndSuffix`. -/
structure Externals where
  suffixSketchWindowed : String
  suffixFingerPrintSketch : String
  suffixFingerPrintSketchWindowed : String
  hasSuffixFingerPrint : String → String → Bool
  splitFile : String → List String → List String
  sketchParameterSetup : Sketch.Parameters → Command → Int × Sketch.Parameters
  sketchParameterFingerPrintSetup :
    SketchFingerPrint.Parameters → Command → Int × SketchFingerPrint.Parameters
  defaultParameters : Sketch.Parameters
  defaultParametersFingerPrint : SketchFingerPrint.Parameters
  nullParameters : Sketch.Parameters
  nullParametersFingerPrint : SketchFingerPrint.Parameters

/-- The calls a run makes on its collaborators, in program order. -/
inductive Event where
  /-- The help text: `Command::print()`. -/
  | print
  /-- A line written to `cout`. -/
  | cout (line : String)
  /-- The call `sketchParameterSetup(parameters, command)`. -/
  | sketchParameterSetup
  /-- The call `sketchParameterFingerPrintSetup(parameters, command)`. -/
  | sketchParameterFingerPrintSetup
  /-- The call `populateFiles(files, list)`, with the vector it leaves. -/
  | populateFiles (files : List String)
  /-- The call `Sketch::initFromReads(files, parameters)`. -/
  | initFromReads (files : List String) (parameters : Sketch.Parameters)
  /-- The call `Sketch::initFromFiles(files, parameters, verbosity)`. -/
  | initFromFiles (files : List String) (parameters : Sketch.Parameters) (verbosity : Int)
  /-- The call `Sketch::setReferenceName(index, name)`. -/
  | setReferenceName (index : Nat) (name : String)
  /-- The call `Sketch::setReferenceComment(index, comment)`. -/
  | setReferenceComment (index : Nat) (comment : String)
  /-- The call `Sketch::writeToCapnp(path)`. -/
  | writeToCapnp (path : String)
  /-- The call `SketchFingerPrint::initFromFingerprints(files, parameters)`. -/
  | initFromFingerprints (files : List String) (parameters : SketchFingerPrint.Parameters)
  /-- The call `SketchFingerPrint::setReferenceName(index, name)`. -/
  | fingerPrintSetReferenceName (index : Nat) (name : String)
  /-- The call `SketchFingerPrint::setReferenceComment(index, comment)`. -/
  | fingerPrintSetReferenceComment (index : Nat) (comment : String)
  /-- The call `SketchFingerPrint::writeToCapnpFingerPrint(path)`. -/
  | writeToCapnpFingerPrint (path : String)
  deriving DecidableEq, Repr

/-- Exit code of a run together with the calls it made. -/
structure Outcome where
  code : Int
  trace : List Event
  deriving DecidableEq, Repr

/-! ## Helpers declared outside `CommandSketch.cpp` -/

/-- Modelled from the spec: `suffixSketch` is declared in `Sketch.h`, which is
not among the available sources; the option text of `-o` in the constructor
says "The suffix '.msh' will be appended". -/
def suffixSketch : String := ".msh"

/-- Modelled from the spec: `hasSuffix` is declared in `Sketch.h`, which is not
among the available sources; it is the test that `whole` ends with `suffix`
(the last `suffix.length()` characters of `whole` compare equal to
`suffix`, and a `whole` shorter than `suffix` does not have it). -/
def hasSuffix (whole suffix : String) : Bool :=
  if whole.length ≥ suffix.length then
    (whole.data.drop (whole.length - suffix.length)).take suffix.length == suffix.data
  else
    false

/-! ## `CommandSketch` -/

/-- The method `CommandSketch::checkArguments` (lines 169-199): the result and
the calls made (`print()` on the rejecting branch). -/
def checkArguments (cmd : Command) : Bool × List Event :=
  if cmd.arguments.length == 0 || (cmd.options "help").active then
    (false, [Event.print])
  else
    (true, [])

/-- The `for` loop of `CommandSketch::populateFiles` (lines 215-221) from
index `i` on. -/
def populateFilesLoop (ext : Externals) (cmd : Command) (list : Bool)
    (i : Nat) (files : List String) : List String :=
  if h : i < cmd.arguments.length then
    if list then
      populateFilesLoop ext cmd list (i + 1) (ext.splitFile cmd.arguments[i] files)
    else
      populateFilesLoop ext cmd list (i + 1) (files ++ [cmd.arguments[i]])
  else
    files
termination_by cmd.arguments.length - i

/-- The method `CommandSketch::populateFiles` (lines 203-222): the vector
`files` after the call. -/
def populateFiles (ext : Externals) (cmd : Command) (files : List String)
    (list : Bool) : List String :=
  populateFilesLoop ext cmd list 0 files

/-- The method `CommandSketch::determinePrefixAndSuffix` (lines 225-261). The
local `prefix` of the source is `prefixOut` here. In the fingerprint branch
the source reads `parametersFingerprint.windowed`, a spelling that differs
from the parameter `parametersFingerPrint`; it is taken to be that
parameter. -/
def determinePrefixAndSuffix (ext : Externals) (cmd : Command) (arg : String)
    (isFingerprint : Bool) (parametersFingerPrint : SketchFingerPrint.Parameters)
    (parameters : Sketch.Parameters) : String :=
  let prefixOut : String :=
    if (cmd.options "prefix").argument.length > 0 then
      (cmd.options "prefix").argument
    else if arg = "-" then
      "stdin"
    else
      arg
  if isFingerprint then
    let suffix :=
      if parametersFingerPrint.windowed then ext.suffixFingerPrintSketchWindowed
      else ext.suffixFingerPrintSketch
    if !ext.hasSuffixFingerPrint prefixOut suffix then prefixOut ++ suffix else prefixOut
  else
    let suffix := if parameters.windowed then ext.suffixSketchWindowed else suffixSketch
    if !hasSuffix prefixOut suffix then prefixOut ++ suffix else prefixOut

/-- Lines 61-68 of `run`: the `Sketch::Parameters` object is declared, its
`counts` field is set from the option and it is handed to
`sketchParameterSetup`; the exit code and the object as the setup leaves
it. -/
def sequenceSetup (ext : Externals) (cmd : Command) : Int × Sketch.Parameters :=
  let parameters : Sketch.Parameters :=
    { ext.defaultParameters with counts := (cmd.options "counts").active }
  ext.sketchParameterSetup parameters cmd

/-- Lines 121-127 of `runFingerPrint`: the `SketchFingerPrint::Parameters`
object is declared, its `counts` field is set from the option and it is
handed to `sketchParameterFingerPrintSetup`; the exit code and the object as
the setup leaves it. -/
def fingerPrintSetup (ext : Externals) (cmd : Command) :
    Int × SketchFingerPrint.Parameters :=
  let parametersFingerprint : SketchFingerPrint.Parameters :=
    { ext.defaultParametersFingerPrint with counts := (cmd.options "counts").active }
  ext.sketchParameterFingerPrintSetup parametersFingerprint cmd

/-- The method `CommandSketch::runFingerPrint` (lines 112-161). `arguments[0]` is read
without a bounds check in the source; `run` only gets here after
`checkArguments` has rejected the empty argument list. -/
def runFingerPrint (ext : Externals) (cmd : Command) : Outcome :=
  let t0 : List Event := [Event.cout "I'm Here ! ... in sketch fingerprint"]
  let list := (cmd.options "list").active
  let setup := fingerPrintSetup ext cmd
  let t1 := t0 ++ [Event.sketchParameterFingerPrintSetup]
  if setup.1 ≠ 0 then
    { code := 1, trace := t1 }
  else
    let parametersFingerprint := setup.2
    let files := populateFiles ext cmd [] list
    let t2 := t1 ++ [Event.populateFiles files,
      Event.initFromFingerprints files parametersFingerprint]
    let t3 :=
      if (cmd.getOption "id").active then
        t2 ++ [Event.fingerPrintSetReferenceName 0 (cmd.getOption "id").argument]
      else t2
    let t4 :=
      if (cmd.getOption "comment").active then
        t3 ++ [Event.fingerPrintSetReferenceComment 0 (cmd.getOption "comment").argument]
      else t3
    let prefixOut := determinePrefixAndSuffix ext cmd (cmd.arguments.getD 0 "") true
      parametersFingerprint ext.nullParameters
    { code := 0, trace := t4 ++ [Event.writeToCapnpFingerPrint prefixOut] }

/-- The method `CommandSketch::run` (lines 39-107). The two `nullptr`
arguments of `determinePrefixAndSuffix` are the objects `nullParameters` and
`nullParametersFingerPrint` of the externals. -/
def run (ext : Externals) (cmd : Command) : Outcome :=
  let check := checkArguments cmd
  if !check.1 then
    { code := 1, trace := check.2 }
  else
    let fingerprint := (cmd.options "fingerprint").active
    if fingerprint then
      let r := runFingerPrint ext cmd
      { code := r.code, trace := check.2 ++ r.trace }
    else
      let verbosity : Int := 1
      let list := (cmd.options "list").active
      let setup := sequenceSetup ext cmd
      let t1 := check.2 ++ [Event.sketchParameterSetup]
      if setup.1 ≠ 0 then
        { code := 1, trace := t1 }
      else
        let parameters := setup.2
        let files := populateFiles ext cmd [] list
        let t2 := t1 ++ [Event.populateFiles files,
          if parameters.reads then Event.initFromReads files parameters
          else Event.initFromFiles files parameters verbosity]
        let t3 :=
          if (cmd.getOption "id").active then
            t2 ++ [Event.setReferenceName 0 (cmd.getOption "id").argument]
          else t2
        let t4 :=
          if (cmd.getOption "comment").active then
            t3 ++ [Event.setReferenceComment 0 (cmd.getOption "comment").argument]
          else t3
        let prefixOut := determinePrefixAndSuffix ext cmd (cmd.arguments.getD 0 "")
          fingerprint ext.nullParametersFingerPrint parameters
        { code := 0, trace := t4 ++ [Event.writeToCapnp prefixOut] }

/-! ## Reading a trace -/

/-- The paths handed to `Sketch::writeToCapnp`, in order. -/
def sketchWrites : List Event → List String
  | [] => []
  | Event.writeToCapnp path :: t => path :: sketchWrites t
  | _ :: t => sketchWrites t

/-- The paths handed to `SketchFingerPrint::writeToCapnpFingerPrint`, in
order. -/
def fingerPrintWrites : List Event → List String
  | [] => []
  | Event.writeToCapnpFingerPrint path :: t => path :: fingerPrintWrites t
  | _ :: t => fingerPrintWrites t

/-- A call on a sequence `Sketch` object or its parameter setup. -/
def Event.isSketch : Event → Bool
  | Event.sketchParameterSetup => true
  | Event.initFromReads _ _ => true
  | Event.initFromFiles _ _ _ => true
  | Event.setReferenceName _ _ => true
  | Event.setReferenceComment _ _ => true
  | Event.writeToCapnp _ => true
  | _ => false

/-- A call made by `runFingerPrint` only: its banner line, the fingerprint
parameter setup and the calls on the `SketchFingerPrint` object. -/
def Event.isFingerPrint : Event → Bool
  | Event.cout _ => true
  | Event.sketchParameterFingerPrintSetup => true
  | Event.initFromFingerprints _ _ => true
  | Event.fingerPrintSetReferenceName _ _ => true
  | Event.fingerPrintSetReferenceComment _ _ => true
  | Event.writeToCapnpFingerPrint _ => true
  | _ => false

/-- The call populates the file list, initialises a sketch or writes an
output file. -/
def Event.isWork : Event → Bool
  | Event.populateFiles _ => true
  | Event.initFromReads _ _ => true
  | Event.initFromFiles _ _ _ => true
  | Event.writeToCapnp _ => true
  | Event.initFromFingerprints _ _ => true
  | Event.writeToCapnpFingerPrint _ => true
  | _ => false

/-! ## Concrete data for the examples -/

/-- An option table as the command-line reader leaves it when no option is
given: nothing active, every argument empty. -/
def noOptions : String → Command.Option :=
  fun _ => { active := false, argument := "" }

/-- Sets one entry of an option table. -/
def setOption (options : String → Command.Option) (name : String)
    (value : Command.Option) : String → Command.Option :=
  fun key => if key = name then value else options key

/-- Sample externals for the examples: both setups accept the parameter
object unchanged, `splitFile` appends two lines per list file; the suffix
strings other than `suffixSketch` are placeholders. -/
def sampleExternals : Externals where
  suffixSketchWindowed := ".msw"
  suffixFingerPrintSketch := ".mfp"
  suffixFingerPrintSketchWindowed := ".mfw"
  hasSuffixFingerPrint := hasSuffix
  splitFile := fun file lines => lines ++ [file ++ ".1", file ++ ".2"]
  sketchParameterSetup := fun parameters _ => (0, parameters)
  sketchParameterFingerPrintSetup := fun parameters _ => (0, parameters)
  defaultParameters := { counts := false, reads := false, windowed := false }
  defaultParametersFingerPrint := { counts := false, windowed := false }
  nullParameters := { counts := false, reads := false, windowed := false }
  nullParametersFingerPrint := { counts := false, windowed := false }

/-- Same as `sampleExternals`, with both parameter setups failing. -/
def failingExternals : Externals :=
  { sampleExternals with
    sketchParameterSetup := fun parameters _ => (1, parameters)
    sketchParameterFingerPrintSetup := fun parameters _ => (1, parameters) }

/-- Two inputs, list mode on, no output name given. -/
def listCommand : Command where
  arguments := ["reads.fa", "more.fa"]
  options := setOption noOptions "list" { active := true, argument := "" }

/-- One input and `-o out.msh`. -/
def prefixedCommand : Command where
  arguments := ["reads.fa"]
  options := setOption noOptions "prefix" { active := true, argument := "out.msh" }

/-- One input and `-o out`. -/
def plainPrefixCommand : Command where
  arguments := ["reads.fa"]
  options := setOption noOptions "prefix" { active := true, argument := "out" }

/-- Standard input as the only argument, fingerprint mode on. -/
def fingerprintCommand : Command where
  arguments := ["-"]
  options := setOption noOptions "fingerprint" { active := true, argument := "" }

/-! ## Lemmas on the helpers -/

theorem string_length_eq_zero_iff (s : String) : s.length = 0 ↔ s = "" := by
  constructor
  · intro h
    apply String.ext
    exact List.length_eq_zero.mp h
  · intro h
    subst h
    rfl

/-- The test `hasSuffix` holds exactly of the strings that end with `suffix`. -/
theorem hasSuffix_eq_true_iff (whole suffix : String) :
    hasSuffix whole suffix = true ↔ ∃ t : String, whole = t ++ suffix := by
  unfold hasSuffix
  constructor
  · intro h
    split at h
    · rename_i hle
      have hlen : whole.data.length ≥ suffix.data.length := hle
      have hdrop : (whole.data.drop (whole.data.length - suffix.data.length)).length
          = suffix.data.length := by
        rw [List.length_drop]; omega
      have h1 : (whole.data.drop (whole.data.length - suffix.data.length)).take
          suffix.data.length = suffix.data := eq_of_beq h
      rw [List.take_of_length_le (le_of_eq hdrop)] at h1
      refine ⟨⟨whole.data.take (whole.data.length - suffix.data.length)⟩, ?_⟩
      apply String.ext
      rw [String.data_append]
      show whole.data = whole.data.take (whole.data.length - suffix.data.length) ++ suffix.data
      exact ((List.take_append_drop _ _).symm.trans (congrArg _ h1))
    · exact Bool.noConfusion h
  · rintro ⟨t, rfl⟩
    have h1 : (t ++ suffix).length = t.data.length + suffix.data.length := by
      show (t ++ suffix).data.length = _
      rw [String.data_append, List.length_append]
    have h2 : suffix.length = suffix.data.length := rfl
    rw [h1, h2, String.data_append, if_pos (Nat.le_add_left _ _), Nat.add_sub_cancel,
      List.drop_left, List.take_length]
    exact beq_self_eq_true _

theorem hasSuffix_eq_false_iff (whole suffix : String) :
    hasSuffix whole suffix = false ↔ ¬ ∃ t : String, whole = t ++ suffix := by
  rw [← hasSuffix_eq_true_iff]
  simp

/-! ## Lemmas on the loop of `populateFiles` -/

theorem populateFilesLoop_direct (ext : Externals) (cmd : Command) :
    ∀ (n i : Nat) (files : List String), cmd.arguments.length - i = n →
      populateFilesLoop ext cmd false i files = files ++ cmd.arguments.drop i := by
  intro n
  induction n with
  | zero =>
    intro i files hn
    have hi : ¬ i < cmd.arguments.length := by omega
    rw [populateFilesLoop, dif_neg hi, List.drop_eq_nil_of_le (by omega), List.append_nil]
  | succ n ih =>
    intro i files hn
    have hi : i < cmd.arguments.length := by omega
    rw [populateFilesLoop, dif_pos hi]
    simp only [Bool.false_eq_true, if_false]
    rw [ih (i + 1) _ (by omega), List.drop_eq_getElem_cons hi]
    simp

theorem populateFilesLoop_split (ext : Externals) (cmd : Command)
    (entries : String → List String)
    (happend : ∀ a fs, ext.splitFile a fs = fs ++ entries a) :
    ∀ (n i : Nat) (files : List String), cmd.arguments.length - i = n →
      populateFilesLoop ext cmd true i files
        = files ++ (cmd.arguments.drop i).flatMap entries := by
  intro n
  induction n with
  | zero =>
    intro i files hn
    have hi : ¬ i < cmd.arguments.length := by omega
    rw [populateFilesLoop, dif_neg hi, List.drop_eq_nil_of_le (by omega)]
    simp
  | succ n ih =>
    intro i files hn
    have hi : i < cmd.arguments.length := by omega
    rw [populateFilesLoop, dif_pos hi]
    simp only [if_true]
    rw [ih (i + 1) _ (by omega), List.drop_eq_getElem_cons hi, happend, List.flatMap_cons,
      List.append_assoc]

theorem populateFiles_direct (ext : Externals) (cmd : Command) (files : List String) :
    populateFiles ext cmd files false = files ++ cmd.arguments := by
  unfold populateFiles
  rw [populateFilesLoop_direct ext cmd _ 0 files rfl, List.drop_zero]

/-! ## Normal forms of the runs -/

theorem checkArguments_valid (cmd : Command) (hargs : cmd.arguments ≠ [])
    (hhelp : (cmd.options "help").active = false) : checkArguments cmd = (true, []) := by
  unfold checkArguments
  have hlen : cmd.arguments.length ≠ 0 := fun h => hargs (List.length_eq_zero.mp h)
  simp [hlen, hhelp]

theorem runFingerPrint_setup_failed (ext : Externals) (cmd : Command)
    (hsetup : (fingerPrintSetup ext cmd).1 ≠ 0) :
    runFingerPrint ext cmd =
      { code := 1,
        trace := [Event.cout "I'm Here ! ... in sketch fingerprint",
          Event.sketchParameterFingerPrintSetup] } := by
  unfold runFingerPrint
  simp only [if_pos hsetup]
  rfl

theorem runFingerPrint_setup_ok (ext : Externals) (cmd : Command)
    (hsetup : (fingerPrintSetup ext cmd).1 = 0) :
    runFingerPrint ext cmd =
      { code := 0,
        trace :=
          [Event.cout "I'm Here ! ... in sketch fingerprint",
            Event.sketchParameterFingerPrintSetup,
            Event.populateFiles (populateFiles ext cmd [] (cmd.options "list").active),
            Event.initFromFingerprints (populateFiles ext cmd [] (cmd.options "list").active)
              (fingerPrintSetup ext cmd).2]
          ++ (if (cmd.options "id").active then
                [Event.fingerPrintSetReferenceName 0 (cmd.options "id").argument] else [])
          ++ (if (cmd.options "comment").active then
                [Event.fingerPrintSetReferenceComment 0 (cmd.options "comment").argument]
              else [])
          ++ [Event.writeToCapnpFingerPrint
                (determinePrefixAndSuffix ext cmd (cmd.arguments.getD 0 "") true
                  (fingerPrintSetup ext cmd).2
                  ext.nullParameters)] } := by
  unfold runFingerPrint
  simp only [hsetup, ne_eq, not_true_eq_false, if_false, Command.getOption]
  by_cases hid : (cmd.options "id").active = true <;>
    by_cases hc : (cmd.options "comment").active = true <;>
    simp [hid, hc]

theorem run_rejected (ext : Externals) (cmd : Command)
    (h : cmd.arguments = [] ∨ (cmd.options "help").active = true) :
    run ext cmd = { code := 1, trace := [Event.print] } := by
  have hc : checkArguments cmd = (false, [Event.print]) := by
    unfold checkArguments
    rcases h with h | h <;> simp [h]
  unfold run
  simp [hc]

theorem run_fingerprint (ext : Externals) (cmd : Command) (hargs : cmd.arguments ≠ [])
    (hhelp : (cmd.options "help").active = false)
    (hfp : (cmd.options "fingerprint").active = true) :
    run ext cmd = runFingerPrint ext cmd := by
  unfold run
  simp [checkArguments_valid cmd hargs hhelp, hfp]

theorem run_setup_failed (ext : Externals) (cmd : Command) (hargs : cmd.arguments ≠ [])
    (hhelp : (cmd.options "help").active = false)
    (hfp : (cmd.options "fingerprint").active = false)
    (hsetup : (sequenceSetup ext cmd).1 ≠ 0) :
    run ext cmd = { code := 1, trace := [Event.sketchParameterSetup] } := by
  unfold run
  simp [checkArguments_valid cmd hargs hhelp, hfp, hsetup]

theorem run_setup_ok (ext : Externals) (cmd : Command) (hargs : cmd.arguments ≠ [])
    (hhelp : (cmd.options "help").active = false)
    (hfp : (cmd.options "fingerprint").active = false)
    (hsetup : (sequenceSetup ext cmd).1 = 0) :
    run ext cmd =
      { code := 0,
        trace :=
          [Event.sketchParameterSetup,
            Event.populateFiles (populateFiles ext cmd [] (cmd.options "list").active),
            if (sequenceSetup ext cmd).2.reads then
              Event.initFromReads (populateFiles ext cmd [] (cmd.options "list").active)
                (sequenceSetup ext cmd).2
            else
              Event.initFromFiles (populateFiles ext cmd [] (cmd.options "list").active)
                (sequenceSetup ext cmd).2 1]
          ++ (if (cmd.options "id").active then
                [Event.setReferenceName 0 (cmd.options "id").argument] else [])
          ++ (if (cmd.options "comment").active then
                [Event.setReferenceComment 0 (cmd.options "comment").argument] else [])
          ++ [Event.writeToCapnp
                (determinePrefixAndSuffix ext cmd (cmd.arguments.getD 0 "") false
                  ext.nullParametersFingerPrint
                  (sequenceSetup ext cmd).2)] } := by
  unfold run
  simp only [checkArguments_valid cmd hargs hhelp, hfp, hsetup, Command.getOption]
  by_cases hid : (cmd.options "id").active = true <;>
    by_cases hc : (cmd.options "comment").active = true <;>
    simp [hid, hc]

/-! ## The claims -/

/-- C4: `checkArguments` returns false if and only if the argument list is
empty or the `help` option is active, and true exactly when there is at
least one argument and `help` is inactive; `print()` is called exactly when
it returns false (once, and nothing else is called). -/
theorem C4_checkArguments_iff (cmd : Command) :
    ((checkArguments cmd).1 = false ↔
        (cmd.arguments = [] ∨ (cmd.options "help").active = true))
    ∧ ((checkArguments cmd).1 = true ↔
        (cmd.arguments ≠ [] ∧ (cmd.options "help").active = false))
    ∧ ((checkArguments cmd).1 = false ↔ Event.print ∈ (checkArguments cmd).2)
    ∧ ((checkArguments cmd).1 = false → (checkArguments cmd).2 = [Event.print])
    ∧ ((checkArguments cmd).1 = true → (checkArguments cmd).2 = []) := by
  unfold checkArguments
  by_cases hargs : cmd.arguments = [] <;>
    by_cases hhelp : (cmd.options "help").active = true <;>
    simp [hargs, hhelp]

/-- C3: `populateFiles` keeps the command-line order. With `list = true` and an
append-only `splitFile` (it leaves `fs ++ entries a` for the argument `a`)
the vector is the initial one followed by the entries of every argument in
order; with `list = false` it is exactly `files ++ arguments`, it grows by
the number of arguments and the `i`-th appended entry is `arguments[i]`. -/
theorem C3_populateFiles_preserves_order (ext : Externals) (cmd : Command)
    (files : List String) :
    (∀ entries : String → List String,
        (∀ a fs, ext.splitFile a fs = fs ++ entries a) →
        populateFiles ext cmd files true = files ++ cmd.arguments.flatMap entries)
    ∧ populateFiles ext cmd files false = files ++ cmd.arguments
    ∧ (populateFiles ext cmd files false).length = files.length + cmd.arguments.length
    ∧ (∀ (i : Nat) (h : i < cmd.arguments.length),
        (populateFiles ext cmd files false)[files.length + i]? = some cmd.arguments[i]) := by
  refine ⟨?_, populateFiles_direct ext cmd files, ?_, ?_⟩
  · intro entries happend
    unfold populateFiles
    rw [populateFilesLoop_split ext cmd entries happend _ 0 files rfl, List.drop_zero]
  · rw [populateFiles_direct, List.length_append]
  · intro i h
    rw [populateFiles_direct, List.getElem?_append_right (Nat.le_add_right _ _),
      Nat.add_sub_cancel_left, List.getElem?_eq_getElem h]

/-- C3, at `listCommand` with `sampleExternals`: two list files of two lines
each give four entries in order, and without list mode the two arguments
are appended as they are. -/
theorem C3_populateFiles_preserves_order_witness :
    populateFiles sampleExternals listCommand ["first"] true
        = ["first", "reads.fa.1", "reads.fa.2", "more.fa.1", "more.fa.2"]
    ∧ populateFiles sampleExternals listCommand ["first"] false
        = ["first", "reads.fa", "more.fa"] :=
  ⟨(C3_populateFiles_preserves_order sampleExternals listCommand ["first"]).1
      (fun a => [a ++ ".1", a ++ ".2"]) (fun _ _ => rfl),
    (C3_populateFiles_preserves_order sampleExternals listCommand ["first"]).2.1⟩

theorem sketchWrites_append (l₁ l₂ : List Event) :
    sketchWrites (l₁ ++ l₂) = sketchWrites l₁ ++ sketchWrites l₂ := by
  induction l₁ with
  | nil => rfl
  | cons e t ih => cases e <;> simp [sketchWrites, ih]

theorem fingerPrintWrites_append (l₁ l₂ : List Event) :
    fingerPrintWrites (l₁ ++ l₂) = fingerPrintWrites l₁ ++ fingerPrintWrites l₂ := by
  induction l₁ with
  | nil => rfl
  | cons e t ih => cases e <;> simp [fingerPrintWrites, ih]

/-- The non-fingerprint, non-windowed branch of `determinePrefixAndSuffix`
when no output name is given. -/
theorem determinePrefixAndSuffix_default (ext : Externals) (cmd : Command) (a : String)
    (pfp : SketchFingerPrint.Parameters) (p : Sketch.Parameters)
    (hname : (cmd.options "prefix").argument = "") (hwin : p.windowed = false) :
    determinePrefixAndSuffix ext cmd a false pfp p =
      if a = "-" then "stdin.msh" else if hasSuffix a ".msh" then a else a ++ ".msh" := by
  unfold determinePrefixAndSuffix
  have h0 : ¬ (cmd.options "prefix").argument.length > 0 := by
    rw [hname]; decide
  simp only [h0, if_false, hwin, Bool.false_eq_true, suffixSketch]
  by_cases ha : a = "-"
  · subst ha
    simp only [if_true]
    decide
  · simp only [ha, if_false]
    cases hasSuffix a ".msh" <;> simp

/-- The non-fingerprint, non-windowed branch of `determinePrefixAndSuffix`
when an output name is given. -/
theorem determinePrefixAndSuffix_given (ext : Externals) (cmd : Command) (a : String)
    (pfp : SketchFingerPrint.Parameters) (p : Sketch.Parameters)
    (hname : (cmd.options "prefix").argument ≠ "") (hwin : p.windowed = false) :
    determinePrefixAndSuffix ext cmd a false pfp p =
      if hasSuffix (cmd.options "prefix").argument ".msh" then (cmd.options "prefix").argument
      else (cmd.options "prefix").argument ++ ".msh" := by
  unfold determinePrefixAndSuffix
  have h0 : (cmd.options "prefix").argument.length > 0 :=
    Nat.pos_of_ne_zero fun h => hname ((string_length_eq_zero_iff _).mp h)
  simp only [h0, if_true, hwin, Bool.false_eq_true, if_false, suffixSketch]
  cases hasSuffix (cmd.options "prefix").argument ".msh" <;> simp

/-- C1: with no output name given, in non-fingerprint, non-windowed mode,
`determinePrefixAndSuffix` returns "stdin.msh" for the argument "-"; for any
other argument `a` the result starts with `a` and ends with ".msh", it is `a`
itself when `a` already ends with ".msh" and `a ++ ".msh"` otherwise. In a
run that reaches the write step the name written is the one computed from
`arguments[0]`, whatever the other arguments and the `list` option are. -/
theorem C1_default_output_name (ext : Externals) (cmd : Command) (a : String)
    (pfp : SketchFingerPrint.Parameters) (p : Sketch.Parameters)
    (hname : (cmd.options "prefix").argument = "") (hwin : p.windowed = false) :
    (a = "-" → determinePrefixAndSuffix ext cmd a false pfp p = "stdin.msh")
    ∧ (a ≠ "-" →
        (∃ t, determinePrefixAndSuffix ext cmd a false pfp p = a ++ t)
        ∧ (∃ t, determinePrefixAndSuffix ext cmd a false pfp p = t ++ ".msh")
        ∧ ((∃ t, a = t ++ ".msh") → determinePrefixAndSuffix ext cmd a false pfp p = a)
        ∧ ((¬ ∃ t, a = t ++ ".msh") →
            determinePrefixAndSuffix ext cmd a false pfp p = a ++ ".msh"))
    ∧ (∀ rest : List String, cmd.arguments = a :: rest →
        (cmd.options "help").active = false →
        (cmd.options "fingerprint").active = false →
        sequenceSetup ext cmd = (0, p) →
        sketchWrites (run ext cmd).trace
          = [determinePrefixAndSuffix ext cmd a false pfp p]) := by
  have hd := determinePrefixAndSuffix_default ext cmd a pfp p hname hwin
  refine ⟨?_, ?_, ?_⟩
  · intro ha
    rw [hd, if_pos ha]
  · intro ha
    rw [hd, if_neg ha]
    by_cases hs : hasSuffix a ".msh" = true
    · rw [if_pos hs]
      have hex := (hasSuffix_eq_true_iff a ".msh").mp hs
      exact ⟨⟨"", (String.append_empty a).symm⟩, hex, fun _ => rfl, fun hn => absurd hex hn⟩
    · rw [if_neg hs]
      have hex : ¬ ∃ t, a = t ++ ".msh" := fun h => hs ((hasSuffix_eq_true_iff a ".msh").mpr h)
      exact ⟨⟨".msh", rfl⟩, ⟨a, rfl⟩, fun h => absurd h hex, fun _ => rfl⟩
  · intro rest hargs hhelp hfp hsetup
    have hne : cmd.arguments ≠ [] := by rw [hargs]; exact List.cons_ne_nil _ _
    rw [run_setup_ok ext cmd hne hhelp hfp (by rw [hsetup])]
    simp only [hsetup, hargs, List.getD_cons_zero]
    rw [hd, determinePrefixAndSuffix_default ext cmd a ext.nullParametersFingerPrint p hname hwin]
    by_cases hid : (cmd.options "id").active = true <;>
      by_cases hc : (cmd.options "comment").active = true <;>
      by_cases hr : p.reads = true <;>
      simp [sketchWrites, hid, hc, hr]

/-- C1, at `listCommand` (list mode on, two arguments): the name written is
"reads.fa.msh", from the first argument. -/
theorem C1_default_output_name_witness :
    (listCommand.options "prefix").argument = ""
    ∧ sketchWrites (run sampleExternals listCommand).trace
        = [determinePrefixAndSuffix sampleExternals listCommand "reads.fa" false
            { counts := false, windowed := false }
            { counts := false, reads := false, windowed := false }]
    ∧ determinePrefixAndSuffix sampleExternals listCommand "reads.fa" false
        { counts := false, windowed := false }
        { counts := false, reads := false, windowed := false } = "reads.fa.msh" :=
  ⟨by decide,
    (C1_default_output_name sampleExternals listCommand "reads.fa"
      { counts := false, windowed := false }
      { counts := false, reads := false, windowed := false } (by decide) rfl).2.2
      ["more.fa"] rfl (by decide) (by decide) rfl,
    by decide⟩

/-- C2 fails as stated: with `-o out.msh` the output path is "out.msh", not
"out.msh.msh". -/
theorem C2_counterexample :
    (prefixedCommand.options "prefix").argument = "out.msh"
    ∧ determinePrefixAndSuffix sampleExternals prefixedCommand "reads.fa" false
        { counts := false, windowed := false }
        { counts := false, reads := false, windowed := false } = "out.msh"
    ∧ determinePrefixAndSuffix sampleExternals prefixedCommand "reads.fa" false
        { counts := false, windowed := false }
        { counts := false, reads := false, windowed := false }
        ≠ (prefixedCommand.options "prefix").argument ++ ".msh" := by
  decide

/-- C2, amended: for a non-empty value `o` of the `prefix` option, in
non-fingerprint, non-windowed mode, the output path is `o ++ ".msh"` when `o`
does not already end with ".msh", and `o` itself when it does; in both cases
it starts with `o` and ends with ".msh". -/
theorem C2_output_prefix_amended (ext : Externals) (cmd : Command) (a : String)
    (pfp : SketchFingerPrint.Parameters) (p : Sketch.Parameters)
    (hname : (cmd.options "prefix").argument ≠ "") (hwin : p.windowed = false) :
    ((¬ ∃ t, (cmd.options "prefix").argument = t ++ ".msh") →
        determinePrefixAndSuffix ext cmd a false pfp p
          = (cmd.options "prefix").argument ++ ".msh")
    ∧ ((∃ t, (cmd.options "prefix").argument = t ++ ".msh") →
        determinePrefixAndSuffix ext cmd a false pfp p = (cmd.options "prefix").argument)
    ∧ (∃ t, determinePrefixAndSuffix ext cmd a false pfp p
          = (cmd.options "prefix").argument ++ t)
    ∧ (∃ t, determinePrefixAndSuffix ext cmd a false pfp p = t ++ ".msh") := by
  rw [determinePrefixAndSuffix_given ext cmd a pfp p hname hwin]
  by_cases hs : hasSuffix (cmd.options "prefix").argument ".msh" = true
  · rw [if_pos hs]
    have hex := (hasSuffix_eq_true_iff _ ".msh").mp hs
    exact ⟨fun hn => absurd hex hn, fun _ => rfl, ⟨"", (String.append_empty _).symm⟩, hex⟩
  · rw [if_neg hs]
    have hex : ¬ ∃ t, (cmd.options "prefix").argument = t ++ ".msh" :=
      fun h => hs ((hasSuffix_eq_true_iff _ ".msh").mpr h)
    exact ⟨fun _ => rfl, fun h => absurd h hex, ⟨".msh", rfl⟩, ⟨_, rfl⟩⟩

/-- C2 amended, at `plainPrefixCommand` (`-o out`): the output path is
"out.msh". -/
theorem C2_output_prefix_amended_witness :
    (plainPrefixCommand.options "prefix").argument ≠ ""
    ∧ determinePrefixAndSuffix sampleExternals plainPrefixCommand "reads.fa" false
        { counts := false, windowed := false }
        { counts := false, reads := false, windowed := false } = "out" ++ ".msh" :=
  ⟨by decide,
    (C2_output_prefix_amended sampleExternals plainPrefixCommand "reads.fa"
      { counts := false, windowed := false }
      { counts := false, reads := false, windowed := false } (by decide) rfl).1
      (fun h => absurd ((hasSuffix_eq_true_iff "out" ".msh").mpr h) (by decide))⟩

/-- The loop of `populateFiles` uses nothing of the externals but
`splitFile`. -/
theorem populateFilesLoop_congr (ext ext2 : Externals) (cmd : Command) (list : Bool)
    (hsplit : ext2.splitFile = ext.splitFile) :
    ∀ (n i : Nat) (files : List String), cmd.arguments.length - i = n →
      populateFilesLoop ext2 cmd list i files = populateFilesLoop ext cmd list i files := by
  intro n
  induction n with
  | zero =>
    intro i files hn
    have hi : ¬ i < cmd.arguments.length := by omega
    rw [populateFilesLoop, dif_neg hi, populateFilesLoop, dif_neg hi]
  | succ n ih =>
    intro i files hn
    have hi : i < cmd.arguments.length := by omega
    rw [populateFilesLoop, dif_pos hi, populateFilesLoop.eq_1 ext, dif_pos hi, hsplit,
      ih (i + 1) _ (by omega), ih (i + 1) _ (by omega)]

/-- The non-fingerprint branch of `determinePrefixAndSuffix` returns a path
that ends with the sequence-sketch suffix it chose. -/
theorem determinePrefixAndSuffix_sequence_suffix (ext : Externals) (cmd : Command)
    (a : String) (pfp : SketchFingerPrint.Parameters) (p : Sketch.Parameters) :
    ∃ t, determinePrefixAndSuffix ext cmd a false pfp p
      = t ++ (if p.windowed then ext.suffixSketchWindowed else suffixSketch) := by
  unfold determinePrefixAndSuffix
  simp only [Bool.false_eq_true, if_false]
  generalize (if (cmd.options "prefix").argument.length > 0 then
      (cmd.options "prefix").argument else if a = "-" then "stdin" else a) = pre
  generalize (if p.windowed = true then ext.suffixSketchWindowed else suffixSketch) = suffix
  by_cases hs : hasSuffix pre suffix = true
  · simp only [hs, Bool.not_true, Bool.false_eq_true, if_false]
    exact (hasSuffix_eq_true_iff pre suffix).mp hs
  · simp only [Bool.not_eq_true] at hs
    simp only [hs, Bool.not_false, if_true]
    exact ⟨pre, rfl⟩

theorem head_eq_getD (l : List String) (h : l ≠ []) : l.getD 0 "" = l.head h := by
  cases l with
  | nil => exact absurd rfl h
  | cons a t => rfl

/-- C5: in a valid invocation (arguments not empty, `help` inactive), with
`fingerprint` active `run` returns exactly what `runFingerPrint` returns and
makes no call on a sequence `Sketch`; with `fingerprint` inactive `run` makes
none of the calls of `runFingerPrint`, every path it writes is
`determinePrefixAndSuffix` of `arguments[0]` with `isFingerprint = false`
and ends with `suffixSketch` or `suffixSketchWindowed`, and the run is the
same whatever the fingerprint suffixes and the fingerprint suffix test
are. -/
theorem C5_fingerprint_dispatch (ext : Externals) (cmd : Command)
    (hargs : cmd.arguments ≠ []) (hhelp : (cmd.options "help").active = false) :
    ((cmd.options "fingerprint").active = true →
        run ext cmd = runFingerPrint ext cmd
        ∧ (∀ e ∈ (run ext cmd).trace, e.isSketch = false)
        ∧ sketchWrites (run ext cmd).trace = [])
    ∧ ((cmd.options "fingerprint").active = false →
        (∀ e ∈ (run ext cmd).trace, e.isFingerPrint = false)
        ∧ fingerPrintWrites (run ext cmd).trace = []
        ∧ (∀ path ∈ sketchWrites (run ext cmd).trace,
            path = determinePrefixAndSuffix ext cmd (cmd.arguments.head hargs) false
              ext.nullParametersFingerPrint (sequenceSetup ext cmd).2
            ∧ ((∃ t, path = t ++ suffixSketch) ∨ (∃ t, path = t ++ ext.suffixSketchWindowed)))
        ∧ (∀ (s₁ s₂ : String) (test : String → String → Bool),
            run { ext with
                  suffixFingerPrintSketch := s₁
                  suffixFingerPrintSketchWindowed := s₂
                  hasSuffixFingerPrint := test } cmd = run ext cmd)) := by
  constructor
  · intro hfp
    rw [run_fingerprint ext cmd hargs hhelp hfp]
    refine ⟨rfl, ?_⟩
    by_cases hsetup : (fingerPrintSetup ext cmd).1 = 0
    · rw [runFingerPrint_setup_ok ext cmd hsetup]
      by_cases hid : (cmd.options "id").active = true <;>
        by_cases hc : (cmd.options "comment").active = true <;>
        simp [hid, hc, Event.isSketch, sketchWrites]
    · rw [runFingerPrint_setup_failed ext cmd hsetup]
      simp [Event.isSketch, sketchWrites]
  · intro hfp
    by_cases hsetup : (sequenceSetup ext cmd).1 = 0
    · have hsuf := determinePrefixAndSuffix_sequence_suffix ext cmd (cmd.arguments.head hargs)
        ext.nullParametersFingerPrint (sequenceSetup ext cmd).2
      have hsuf2 : (∃ t, determinePrefixAndSuffix ext cmd (cmd.arguments.head hargs) false
            ext.nullParametersFingerPrint (sequenceSetup ext cmd).2 = t ++ suffixSketch)
          ∨ (∃ t, determinePrefixAndSuffix ext cmd (cmd.arguments.head hargs) false
            ext.nullParametersFingerPrint (sequenceSetup ext cmd).2
              = t ++ ext.suffixSketchWindowed) := by
        by_cases hw : (sequenceSetup ext cmd).2.windowed = true
        · rw [if_pos hw] at hsuf; exact Or.inr hsuf
        · rw [if_neg hw] at hsuf; exact Or.inl hsuf
      refine ⟨?_, ?_, ?_, ?_⟩
      · rw [run_setup_ok ext cmd hargs hhelp hfp hsetup]
        by_cases hid : (cmd.options "id").active = true <;>
          by_cases hc : (cmd.options "comment").active = true <;>
          by_cases hr : (sequenceSetup ext cmd).2.reads = true <;>
          simp [hid, hc, hr, Event.isFingerPrint]
      · rw [run_setup_ok ext cmd hargs hhelp hfp hsetup]
        by_cases hid : (cmd.options "id").active = true <;>
          by_cases hc : (cmd.options "comment").active = true <;>
          by_cases hr : (sequenceSetup ext cmd).2.reads = true <;>
          simp [hid, hc, hr, fingerPrintWrites]
      · rw [run_setup_ok ext cmd hargs hhelp hfp hsetup, head_eq_getD _ hargs]
        intro path hpath
        have hp : path = determinePrefixAndSuffix ext cmd (cmd.arguments.head hargs) false
            ext.nullParametersFingerPrint (sequenceSetup ext cmd).2 := by
          revert hpath
          by_cases hid : (cmd.options "id").active = true <;>
            by_cases hc : (cmd.options "comment").active = true <;>
            by_cases hr : (sequenceSetup ext cmd).2.reads = true <;>
            simp [hid, hc, hr, sketchWrites]
        exact ⟨hp, hp ▸ hsuf2⟩
      · intro s₁ s₂ test
        have hsetup2 : (sequenceSetup { ext with
            suffixFingerPrintSketch := s₁
            suffixFingerPrintSketchWindowed := s₂
            hasSuffixFingerPrint := test } cmd).1 = 0 := hsetup
        rw [run_setup_ok ext cmd hargs hhelp hfp hsetup,
          run_setup_ok _ cmd hargs hhelp hfp hsetup2]
        have hpop : populateFiles { ext with
            suffixFingerPrintSketch := s₁
            suffixFingerPrintSketchWindowed := s₂
            hasSuffixFingerPrint := test } cmd [] (cmd.options "list").active
            = populateFiles ext cmd [] (cmd.options "list").active :=
          populateFilesLoop_congr ext { ext with
            suffixFingerPrintSketch := s₁
            suffixFingerPrintSketchWindowed := s₂
            hasSuffixFingerPrint := test } cmd (cmd.options "list").active rfl _ 0 [] rfl
        rw [hpop]
        rfl
    · have hfail := run_setup_failed ext cmd hargs hhelp hfp hsetup
      refine ⟨?_, ?_, ?_, ?_⟩
      · rw [hfail]; simp [Event.isFingerPrint]
      · rw [hfail]; rfl
      · rw [hfail]; intro path hpath; exact absurd hpath (List.not_mem_nil _)
      · intro s₁ s₂ test
        rw [hfail]
        exact run_setup_failed _ cmd hargs hhelp hfp hsetup

/-- C5, at `fingerprintCommand`: the run is the fingerprint run and writes no
sequence sketch. -/
theorem C5_fingerprint_dispatch_witness :
    fingerprintCommand.arguments ≠ []
    ∧ (fingerprintCommand.options "help").active = false
    ∧ (fingerprintCommand.options "fingerprint").active = true
    ∧ run sampleExternals fingerprintCommand = runFingerPrint sampleExternals fingerprintCommand
    ∧ sketchWrites (run sampleExternals fingerprintCommand).trace = [] :=
  ⟨by decide, by decide, by decide,
    ((C5_fingerprint_dispatch sampleExternals fingerprintCommand (by decide) (by decide)).1
      (by decide)).1,
    ((C5_fingerprint_dispatch sampleExternals fingerprintCommand (by decide) (by decide)).1
      (by decide)).2.2⟩

theorem runFingerPrint_code_zero (ext : Externals) (cmd : Command)
    (hcode : (runFingerPrint ext cmd).code = 0) : (fingerPrintSetup ext cmd).1 = 0 := by
  by_contra hsetup
  rw [runFingerPrint_setup_failed ext cmd hsetup] at hcode
  exact absurd hcode (by decide)

theorem runFingerPrint_writes (ext : Externals) (cmd : Command) (hargs : cmd.arguments ≠ [])
    (hsetup : (fingerPrintSetup ext cmd).1 = 0) :
    fingerPrintWrites (runFingerPrint ext cmd).trace
        = [determinePrefixAndSuffix ext cmd (cmd.arguments.head hargs) true
            (fingerPrintSetup ext cmd).2 ext.nullParameters]
    ∧ sketchWrites (runFingerPrint ext cmd).trace = [] := by
  rw [runFingerPrint_setup_ok ext cmd hsetup, head_eq_getD _ hargs]
  by_cases hid : (cmd.options "id").active = true <;>
    by_cases hc : (cmd.options "comment").active = true <;>
    simp [hid, hc, fingerPrintWrites, sketchWrites]

/-- C6: in a valid invocation, when the parameter setup of the selected mode
returns a non-zero value the command returns 1 and makes no call that
populates the file list, initialises a sketch or writes an output file
(`run` in sequence mode, `runFingerPrint`, and `run` in fingerprint mode);
and when the command returns 0 it has written exactly once, in the selected
mode only, to the path `determinePrefixAndSuffix` gives for
`arguments[0]`. -/
theorem C6_no_output_on_setup_failure (ext : Externals) (cmd : Command)
    (hargs : cmd.arguments ≠ []) (hhelp : (cmd.options "help").active = false) :
    ((cmd.options "fingerprint").active = false → (sequenceSetup ext cmd).1 ≠ 0 →
        (run ext cmd).code = 1 ∧ ∀ e ∈ (run ext cmd).trace, e.isWork = false)
    ∧ ((fingerPrintSetup ext cmd).1 ≠ 0 →
        (runFingerPrint ext cmd).code = 1
        ∧ ∀ e ∈ (runFingerPrint ext cmd).trace, e.isWork = false)
    ∧ ((cmd.options "fingerprint").active = true → (fingerPrintSetup ext cmd).1 ≠ 0 →
        (run ext cmd).code = 1 ∧ ∀ e ∈ (run ext cmd).trace, e.isWork = false)
    ∧ ((cmd.options "fingerprint").active = false → (run ext cmd).code = 0 →
        sketchWrites (run ext cmd).trace
            = [determinePrefixAndSuffix ext cmd (cmd.arguments.head hargs) false
                ext.nullParametersFingerPrint (sequenceSetup ext cmd).2]
        ∧ fingerPrintWrites (run ext cmd).trace = [])
    ∧ ((runFingerPrint ext cmd).code = 0 →
        fingerPrintWrites (runFingerPrint ext cmd).trace
            = [determinePrefixAndSuffix ext cmd (cmd.arguments.head hargs) true
                (fingerPrintSetup ext cmd).2 ext.nullParameters]
        ∧ sketchWrites (runFingerPrint ext cmd).trace = [])
    ∧ ((cmd.options "fingerprint").active = true → (run ext cmd).code = 0 →
        fingerPrintWrites (run ext cmd).trace
            = [determinePrefixAndSuffix ext cmd (cmd.arguments.head hargs) true
                (fingerPrintSetup ext cmd).2 ext.nullParameters]
        ∧ sketchWrites (run ext cmd).trace = []) := by
  have hfpfail : (fingerPrintSetup ext cmd).1 ≠ 0 →
      (runFingerPrint ext cmd).code = 1
        ∧ ∀ e ∈ (runFingerPrint ext cmd).trace, e.isWork = false := by
    intro hsetup
    rw [runFingerPrint_setup_failed ext cmd hsetup]
    simp [Event.isWork]
  have hfpok : (runFingerPrint ext cmd).code = 0 →
      fingerPrintWrites (runFingerPrint ext cmd).trace
          = [determinePrefixAndSuffix ext cmd (cmd.arguments.head hargs) true
              (fingerPrintSetup ext cmd).2 ext.nullParameters]
        ∧ sketchWrites (runFingerPrint ext cmd).trace = [] :=
    fun hcode => runFingerPrint_writes ext cmd hargs (runFingerPrint_code_zero ext cmd hcode)
  refine ⟨?_, hfpfail, ?_, ?_, hfpok, ?_⟩
  · intro hfp hsetup
    rw [run_setup_failed ext cmd hargs hhelp hfp hsetup]
    simp [Event.isWork]
  · intro hfp hsetup
    rw [run_fingerprint ext cmd hargs hhelp hfp]
    exact hfpfail hsetup
  · intro hfp hcode
    have hsetup : (sequenceSetup ext cmd).1 = 0 := by
      by_contra hsetup
      rw [run_setup_failed ext cmd hargs hhelp hfp hsetup] at hcode
      exact absurd hcode (by decide)
    rw [run_setup_ok ext cmd hargs hhelp hfp hsetup, head_eq_getD _ hargs]
    by_cases hid : (cmd.options "id").active = true <;>
      by_cases hc : (cmd.options "comment").active = true <;>
      by_cases hr : (sequenceSetup ext cmd).2.reads = true <;>
      simp [hid, hc, hr, fingerPrintWrites, sketchWrites]
  · intro hfp hcode
    rw [run_fingerprint ext cmd hargs hhelp hfp] at hcode ⊢
    exact hfpok hcode

/-- C6, at `listCommand` with both setups failing: the run returns 1 and
makes no call that populates, initialises or writes. -/
theorem C6_no_output_on_setup_failure_witness :
    listCommand.arguments ≠ []
    ∧ (listCommand.options "help").active = false
    ∧ (sequenceSetup failingExternals listCommand).1 ≠ 0
    ∧ (run failingExternals listCommand).code = 1
    ∧ ∀ e ∈ (run failingExternals listCommand).trace, e.isWork = false :=
  ⟨by decide, by decide, by decide,
    (C6_no_output_on_setup_failure failingExternals listCommand (by decide) (by decide)).1
      (by decide) (by decide)⟩

end mash
